import Mathlib

/-
Shallow embedding of pkg/ipfs/screener.go from the vulcanizedb repository.

Modelling decisions, all driven by the Go source:
  * Byte strings are lists of naturals; trie keys (go-ethereum common.Hash,
    a fixed 32-byte array compared with bytes.Equal) are an opaque
    identifier used only for equality, modelled as Nat.
  * RLP encoding of headers, transactions and receipts is an external
    collaborator (github.com/ethereum/go-ethereum/rlp); the screener only
    ever calls it and observes bytes or an error, so each chain object is
    modelled as carrying the outcome of its own canonical encoding.
  * AddressToKey (composed with common.HexToAddress) and HexToKey are
    delegated utility functions from this repository outside the screener
    file; the screener treats their results as opaque keys, so they are
    parameters of the embedding.
  * Go maps are modelled as association lists.  A nil Go map is modelled
    as none, a live map as some of its entries; assignment to an entry of
    a nil map is a Go runtime panic, modelled as an explicit panic
    outcome.  Indexing a slice out of range is likewise a panic outcome.
  * Each filter pass has Go signature
      func (s *Screener) pass(streamFilters *StreamFilters,
                              response *ResponsePayload,
                              payload IPLDPayload) error
    and may in principle mutate anything reachable from its pointer and
    slice/map arguments, so a pass is embedded as a function returning
    the (possibly updated) filters, response and payload together with
    the returned error, or a panic.
-/

abbrev Bytes := List Nat

abbrev Hash := Nat

abbrev Err := String

instance {ε α : Type} [DecidableEq ε] [DecidableEq α] : DecidableEq (Except ε α) := fun a b =>
  match a, b with
  | .error x, .error y =>
    if h : x = y then .isTrue (by rw [h]) else .isFalse (fun c => h (Except.error.inj c))
  | .error _, .ok _ => .isFalse (fun c => Except.noConfusion c)
  | .ok _, .error _ => .isFalse (fun c => Except.noConfusion c)
  | .ok x, .ok y =>
    if h : x = y then .isTrue (by rw [h]) else .isFalse (fun c => h (Except.ok.inj c))

/-- go-ethereum types.Header as the screener sees an uncle: the only
operation performed on it is rlp.EncodeToBytes. -/
structure Header where
  EncodeToBytes : Except Err Bytes
deriving DecidableEq

/-- go-ethereum types.Transaction as the screener sees it: the only
operation performed on it is EncodeRLP into a fresh buffer. -/
structure Transaction where
  EncodeRLP : Except Err Bytes
deriving DecidableEq

/-- go-ethereum types.Receipt as the screener sees it: the only
operation performed on it is EncodeRLP into a fresh buffer. -/
structure Receipt where
  EncodeRLP : Except Err Bytes
deriving DecidableEq

structure TrxMetaData where
  Src : String
  Dst : String
deriving DecidableEq

structure ReceiptMetaData where
  Topic0s : List String
deriving DecidableEq

structure StateNode where
  Leaf : Bool
  Value : Bytes
deriving DecidableEq

structure StorageNode where
  Key : Hash
  Value : Bytes
deriving DecidableEq

structure BlockBody where
  Uncles : List Header
  Transactions : List Transaction
deriving DecidableEq

structure HeaderFilter where
  Off : Bool
  StartingBlock : Int
  EndingBlock : Int
  Uncles : Bool
deriving DecidableEq

structure TrxFilter where
  Off : Bool
  StartingBlock : Int
  EndingBlock : Int
  Src : List String
  Dst : List String
deriving DecidableEq

structure ReceiptFilter where
  Off : Bool
  StartingBlock : Int
  EndingBlock : Int
  Topic0s : List String
deriving DecidableEq

structure StateFilter where
  Off : Bool
  StartingBlock : Int
  EndingBlock : Int
  Addresses : List String
  IntermediateNodes : Bool
deriving DecidableEq

structure StorageFilter where
  Off : Bool
  StartingBlock : Int
  EndingBlock : Int
  Addresses : List String
  StorageKeys : List String
deriving DecidableEq

structure StreamFilters where
  HeaderFilter : HeaderFilter
  TrxFilter : TrxFilter
  ReceiptFilter : ReceiptFilter
  StateFilter : StateFilter
  StorageFilter : StorageFilter
deriving DecidableEq

/-- IPLDPayload: one fully decoded block.  BlockNumber is *big.Int in Go,
read through .Int64(); the screener only compares it, so it is an Int
here.  StateNodes and StorageNodes are Go maps, modelled as association
lists (Go map iteration order is unspecified; no theorem below depends
on the order chosen). -/
structure IPLDPayload where
  BlockNumber : Int
  HeaderRLP : Bytes
  BlockBody : BlockBody
  TrxMetaData : List TrxMetaData
  Receipts : List Receipt
  ReceiptMetaData : List ReceiptMetaData
  StateNodes : List (Hash × StateNode)
  StorageNodes : List (Hash × List StorageNode)
deriving DecidableEq

/-- ResponsePayload as allocated by new(ResponsePayload): slices start
nil/empty and both maps start nil (none). -/
structure ResponsePayload where
  HeadersRlp : List Bytes := []
  UnclesRlp : List Bytes := []
  TransactionsRlp : List Bytes := []
  ReceiptsRlp : List Bytes := []
  StateNodesRlp : Option (List (Hash × Bytes)) := none
  StorageNodesRlp : Option (List (Hash × List (Hash × Bytes))) := none
deriving DecidableEq

/-- The two Go runtime panics the screener code can trigger. -/
inductive GoPanic where
  | indexOutOfRange
  | nilMapWrite
deriving DecidableEq

/-- Result of one filter pass: a panic, or the updated filters, response
and payload together with the returned error value. -/
abbrev PassResult := Except GoPanic (StreamFilters × ResponsePayload × IPLDPayload × Option Err)

/-- Go map assignment m[k] = v on an association list, up to map
extensionality (lookup below is the observation the theorems use). -/
def mapInsert (l : List (Hash × α)) (k : Hash) (v : α) : List (Hash × α) :=
  (k, v) :: l.filter (fun q => !(q.1 == k))

/-- Go map read m[k] on an association list. -/
def mapLookup : List (Hash × α) → Hash → Option α
  | [], _ => none
  | q :: rest, k => if q.1 == k then some q.2 else mapLookup rest k

/-- checkRange from screener.go. -/
def checkRange (start end_ actual : Int) : Bool :=
  if (end_ ≤ 0 ∨ end_ ≥ actual) ∧ start ≤ actual then true else false

/-- checkTransactions from screener.go: empty wanted sets match all,
otherwise first loop over wantedSrc, then loop over wantedDst. -/
def checkTransactions (wantedSrc wantedDst : List String) (actualSrc actualDst : String) : Bool :=
  if wantedDst.length == 0 && wantedSrc.length == 0 then
    true
  else if wantedSrc.any (fun src => src == actualSrc) then
    true
  else
    wantedDst.any (fun dst => dst == actualDst)

/-- checkReceipts from screener.go: empty wanted topic set matches all,
otherwise the two nested loops look for a shared topic. -/
def checkReceipts (wantedTopics actualTopics : List String) : Bool :=
  if wantedTopics.length == 0 then
    true
  else
    wantedTopics.any (fun wantedTopic => actualTopics.any (fun actualTopic => wantedTopic == actualTopic))

/-- checkNodeKeys from screener.go; bytes.Equal on the two 32-byte keys
is equality of the keys. -/
def checkNodeKeys (wantedKeys : List Hash) (actualKey : Hash) : Bool :=
  if wantedKeys.length == 0 then
    true
  else
    wantedKeys.any (fun key => key == actualKey)

/-- The uncle loop of filterHeaders: rlp.EncodeToBytes each uncle in
order, appending to response.UnclesRlp; the first failure returns that
error with the appends made so far kept in the response. -/
def unclesLoop : List Header → List Bytes → List Bytes × Option Err
  | [], acc => (acc, none)
  | uncle :: uncles, acc =>
    match uncle.EncodeToBytes with
    | .error e => (acc, some e)
    | .ok uncleRlp => unclesLoop uncles (acc ++ [uncleRlp])

/-- filterHeaders from screener.go. -/
def filterHeaders (streamFilters : StreamFilters) (response : ResponsePayload) (payload : IPLDPayload) : PassResult :=
  if !streamFilters.HeaderFilter.Off && checkRange streamFilters.HeaderFilter.StartingBlock streamFilters.HeaderFilter.EndingBlock payload.BlockNumber then
    let response := { response with HeadersRlp := response.HeadersRlp ++ [payload.HeaderRLP] }
    if streamFilters.HeaderFilter.Uncles then
      let res := unclesLoop payload.BlockBody.Uncles response.UnclesRlp
      .ok (streamFilters, { response with UnclesRlp := res.1 }, payload, res.2)
    else
      .ok (streamFilters, response, payload, none)
  else
    .ok (streamFilters, response, payload, none)

/-- The transaction loop of filterTransactions.  Go iterates
`for i, trx := range payload.BlockBody.Transactions` and reads
payload.TrxMetaData[i]; walking the two lists in lockstep performs the
same index accesses, and exhausting the metadata while transactions
remain is exactly the Go index-out-of-range panic. -/
def trxLoop (wantedSrc wantedDst : List String) :
    List Transaction → List TrxMetaData → List Bytes → Except GoPanic (List Bytes × Option Err)
  | [], _, acc => .ok (acc, none)
  | _ :: _, [], _ => .error .indexOutOfRange
  | trx :: trxs, meta :: metas, acc =>
    if checkTransactions wantedSrc wantedDst meta.Src meta.Dst then
      match trx.EncodeRLP with
      | .error e => .ok (acc, some e)
      | .ok trxRlp => trxLoop wantedSrc wantedDst trxs metas (acc ++ [trxRlp])
    else
      trxLoop wantedSrc wantedDst trxs metas acc

/-- filterTransactions from screener.go. -/
def filterTransactions (streamFilters : StreamFilters) (response : ResponsePayload) (payload : IPLDPayload) : PassResult :=
  if !streamFilters.TrxFilter.Off && checkRange streamFilters.TrxFilter.StartingBlock streamFilters.TrxFilter.EndingBlock payload.BlockNumber then
    match trxLoop streamFilters.TrxFilter.Src streamFilters.TrxFilter.Dst payload.BlockBody.Transactions payload.TrxMetaData response.TransactionsRlp with
    | .error w => .error w
    | .ok (lst, e) => .ok (streamFilters, { response with TransactionsRlp := lst }, payload, e)
  else
    .ok (streamFilters, response, payload, none)

/-- The receipt loop of filerReceipts, lockstep over Receipts and
ReceiptMetaData exactly as trxLoop. -/
def receiptsLoop (wantedTopics : List String) :
    List Receipt → List ReceiptMetaData → List Bytes → Except GoPanic (List Bytes × Option Err)
  | [], _, acc => .ok (acc, none)
  | _ :: _, [], _ => .error .indexOutOfRange
  | receipt :: receipts, meta :: metas, acc =>
    if checkReceipts wantedTopics meta.Topic0s then
      match receipt.EncodeRLP with
      | .error e => .ok (acc, some e)
      | .ok receiptRlp => receiptsLoop wantedTopics receipts metas (acc ++ [receiptRlp])
    else
      receiptsLoop wantedTopics receipts metas acc

/-- filerReceipts from screener.go (the source function name has this
spelling). -/
def filerReceipts (streamFilters : StreamFilters) (response : ResponsePayload) (payload : IPLDPayload) : PassResult :=
  if !streamFilters.ReceiptFilter.Off && checkRange streamFilters.ReceiptFilter.StartingBlock streamFilters.ReceiptFilter.EndingBlock payload.BlockNumber then
    match receiptsLoop streamFilters.ReceiptFilter.Topic0s payload.Receipts payload.ReceiptMetaData response.ReceiptsRlp with
    | .error w => .error w
    | .ok (lst, e) => .ok (streamFilters, { response with ReceiptsRlp := lst }, payload, e)
  else
    .ok (streamFilters, response, payload, none)

/-- Body of the state-node loop of filterState: the write
response.StateNodesRlp[key] = stateNode.Value guarded by the key and
leaf/intermediate checks. -/
def stateStep (keyFilters : List Hash) (intermediateNodes : Bool)
    (acc : List (Hash × Bytes)) (kv : Hash × StateNode) : List (Hash × Bytes) :=
  if checkNodeKeys keyFilters kv.1 then
    if kv.2.Leaf || intermediateNodes then
      mapInsert acc kv.1 kv.2.Value
    else acc
  else acc

/-- filterState from screener.go.  The first statement of the Go
function unconditionally does response.StateNodesRlp = make(...), so the
map is live (some) on every path; the loop then fills the freshly made
empty map. -/
def filterState (AddressToKey : String → Hash) (streamFilters : StreamFilters) (response : ResponsePayload) (payload : IPLDPayload) : PassResult :=
  let response := { response with StateNodesRlp := some [] }
  if !streamFilters.StateFilter.Off && checkRange streamFilters.StateFilter.StartingBlock streamFilters.StateFilter.EndingBlock payload.BlockNumber then
    let keyFilters := streamFilters.StateFilter.Addresses.map AddressToKey
    let m := payload.StateNodes.foldl (stateStep keyFilters streamFilters.StateFilter.IntermediateNodes) []
    .ok (streamFilters, { response with StateNodesRlp := some m }, payload, none)
  else
    .ok (streamFilters, response, payload, none)

/-- Body of the inner storage-node loop of filterStorage, filling the
inner map made for one matching state key. -/
def storageStep (storageKeyFilters : List Hash)
    (acc : List (Hash × Bytes)) (storageNode : StorageNode) : List (Hash × Bytes) :=
  if checkNodeKeys storageKeyFilters storageNode.Key then
    mapInsert acc storageNode.Key storageNode.Value
  else acc

/-- The outer storage loop of filterStorage.  For a matching state key
the Go code executes response.StorageNodesRlp[stateKey] = make(...): on
a nil outer map this is the Go panic "assignment to entry in nil map";
on a live outer map the net effect of the make plus the inner loop is
that the entry at stateKey becomes the filtered inner map. -/
def storageLoop (stateKeyFilters storageKeyFilters : List Hash) :
    List (Hash × List StorageNode) → Option (List (Hash × List (Hash × Bytes))) →
      Except GoPanic (Option (List (Hash × List (Hash × Bytes))))
  | [], m => .ok m
  | kv :: rest, m =>
    if checkNodeKeys stateKeyFilters kv.1 then
      match m with
      | none => .error .nilMapWrite
      | some l =>
        storageLoop stateKeyFilters storageKeyFilters rest
          (some (mapInsert l kv.1 (kv.2.foldl (storageStep storageKeyFilters) [])))
    else
      storageLoop stateKeyFilters storageKeyFilters rest m

/-- filterStorage from screener.go.  Unlike filterState it never makes
the outer map. -/
def filterStorage (AddressToKey HexToKey : String → Hash) (streamFilters : StreamFilters) (response : ResponsePayload) (payload : IPLDPayload) : PassResult :=
  if !streamFilters.StorageFilter.Off && checkRange streamFilters.StorageFilter.StartingBlock streamFilters.StorageFilter.EndingBlock payload.BlockNumber then
    let stateKeyFilters := streamFilters.StorageFilter.Addresses.map AddressToKey
    let storageKeyFilters := streamFilters.StorageFilter.StorageKeys.map HexToKey
    match storageLoop stateKeyFilters storageKeyFilters payload.StorageNodes response.StorageNodesRlp with
    | .error w => .error w
    | .ok m => .ok (streamFilters, { response with StorageNodesRlp := m }, payload, none)
  else
    .ok (streamFilters, response, payload, none)

/-- Observable outcome of one ScreenResponse call: the returned
(*ResponsePayload, error) pair, or a runtime panic. -/
inductive GoOutcome where
  | ret (resp : Option ResponsePayload) (e : Option Err)
  | panic (why : GoPanic)
deriving DecidableEq

/-- ScreenResponse from screener.go, with the final filters and payload
state exposed so that the absence of mutation is a theorem rather than
an assumption.  response := new(ResponsePayload) starts all slices empty
and both maps nil; each pass aborts the call on non-nil error, and a
panic aborts the call with no return value at all. -/
def ScreenResponseFull (AddressToKey HexToKey : String → Hash) (streamFilters : StreamFilters) (payload : IPLDPayload) :
    GoOutcome × StreamFilters × IPLDPayload :=
  let response : ResponsePayload := {}
  match filterHeaders streamFilters response payload with
  | .error w => (.panic w, streamFilters, payload)
  | .ok (f1, _r1, p1, some e) => (.ret none (some e), f1, p1)
  | .ok (f1, r1, p1, none) =>
    match filterTransactions f1 r1 p1 with
    | .error w => (.panic w, f1, p1)
    | .ok (f2, _r2, p2, some e) => (.ret none (some e), f2, p2)
    | .ok (f2, r2, p2, none) =>
      match filerReceipts f2 r2 p2 with
      | .error w => (.panic w, f2, p2)
      | .ok (f3, _r3, p3, some e) => (.ret none (some e), f3, p3)
      | .ok (f3, r3, p3, none) =>
        match filterState AddressToKey f3 r3 p3 with
        | .error w => (.panic w, f3, p3)
        | .ok (f4, _r4, p4, some e) => (.ret none (some e), f4, p4)
        | .ok (f4, r4, p4, none) =>
          match filterStorage AddressToKey HexToKey f4 r4 p4 with
          | .error w => (.panic w, f4, p4)
          | .ok (f5, _r5, p5, some e) => (.ret none (some e), f5, p5)
          | .ok (f5, r5, p5, none) => (.ret (some r5) none, f5, p5)

/-- The (*ResponsePayload, error) view of one ScreenResponse call. -/
def ScreenResponse (AddressToKey HexToKey : String → Hash) (streamFilters : StreamFilters) (payload : IPLDPayload) : GoOutcome :=
  (ScreenResponseFull AddressToKey HexToKey streamFilters payload).1

/-! ### Association-list map lemmas -/

theorem mapLookup_mapInsert_self (l : List (Hash × α)) (k : Hash) (v : α) :
    mapLookup (mapInsert l k v) k = some v := by
  simp [mapInsert, mapLookup]

theorem mapLookup_filter_ne (l : List (Hash × α)) (k k0 : Hash) (h : k0 ≠ k) :
    mapLookup (l.filter (fun q => !(q.1 == k))) k0 = mapLookup l k0 := by
  induction l with
  | nil => rfl
  | cons q rest ih =>
    by_cases hq : q.1 = k
    · have h1 : (!(q.1 == k)) = false := by simp [hq]
      have h0 : (q.1 == k0) = false := by
        simp only [beq_eq_false_iff_ne, ne_eq, hq]
        exact fun c => h c.symm
      rw [List.filter_cons, h1]
      simp only [Bool.false_eq_true, if_false, mapLookup, h0, ih]
    · have h1 : (!(q.1 == k)) = true := by simp [hq]
      rw [List.filter_cons, h1]
      simp only [if_true, mapLookup]
      split
      · rfl
      · exact ih

theorem mapLookup_mapInsert_ne (l : List (Hash × α)) (k k0 : Hash) (v : α) (h : k0 ≠ k) :
    mapLookup (mapInsert l k v) k0 = mapLookup l k0 := by
  rw [mapInsert]
  simp only [mapLookup]
  rw [if_neg (by simp; exact fun c => h c.symm)]
  exact mapLookup_filter_ne l k k0 h

/-! ### Characterizations of the four matching predicates -/

theorem checkRange_iff (start end_ actual : Int) :
    checkRange start end_ actual = true ↔ (actual ≥ start ∧ (end_ ≤ 0 ∨ actual ≤ end_)) := by
  constructor
  · intro h
    rw [checkRange] at h
    split at h
    · omega
    · exact absurd h (by simp)
  · intro h
    rw [checkRange, if_pos (by omega)]

theorem checkNodeKeys_iff (wantedKeys : List Hash) (actualKey : Hash) :
    checkNodeKeys wantedKeys actualKey = true ↔ (wantedKeys = [] ∨ actualKey ∈ wantedKeys) := by
  rw [checkNodeKeys]
  split
  · next h =>
    simp only [beq_iff_eq, List.length_eq_zero] at h
    simp [h]
  · next h =>
    simp only [beq_iff_eq, List.length_eq_zero] at h
    simp only [List.any_eq_true, beq_iff_eq]
    constructor
    · rintro ⟨x, hx, rfl⟩
      exact Or.inr hx
    · rintro (rfl | hk)
      · exact absurd rfl h
      · exact ⟨actualKey, hk, rfl⟩

theorem checkTransactions_iff (wantedSrc wantedDst : List String) (actualSrc actualDst : String) :
    checkTransactions wantedSrc wantedDst actualSrc actualDst = true ↔
      ((wantedSrc = [] ∧ wantedDst = []) ∨ actualSrc ∈ wantedSrc ∨ actualDst ∈ wantedDst) := by
  rw [checkTransactions]
  split
  · next h =>
    simp only [Bool.and_eq_true, beq_iff_eq, List.length_eq_zero] at h
    simp [h.1, h.2]
  · next h =>
    simp only [Bool.and_eq_true, beq_iff_eq, List.length_eq_zero] at h
    split
    · next h2 =>
      simp only [List.any_eq_true, beq_iff_eq] at h2
      obtain ⟨x, hx, rfl⟩ := h2
      simp only [true_iff]
      exact Or.inr (Or.inl hx)
    · next h2 =>
      simp only [List.any_eq_true, beq_iff_eq] at h2 ⊢
      constructor
      · rintro ⟨x, hx, rfl⟩
        exact Or.inr (Or.inr hx)
      · rintro (⟨rfl, rfl⟩ | hS | hD)
        · exact absurd ⟨rfl, rfl⟩ h
        · exact absurd ⟨actualSrc, hS, rfl⟩ h2
        · exact ⟨actualDst, hD, rfl⟩

theorem checkReceipts_iff (wantedTopics actualTopics : List String) :
    checkReceipts wantedTopics actualTopics = true ↔
      (wantedTopics = [] ∨ ∃ t, t ∈ wantedTopics ∧ t ∈ actualTopics) := by
  rw [checkReceipts]
  split
  · next h =>
    simp only [beq_iff_eq, List.length_eq_zero] at h
    simp [h]
  · next h =>
    simp only [beq_iff_eq, List.length_eq_zero] at h
    simp only [List.any_eq_true, beq_iff_eq]
    constructor
    · rintro ⟨t, ht, y, hy, rfl⟩
      exact Or.inr ⟨t, ht, hy⟩
    · rintro (rfl | ⟨t, ht, ha⟩)
      · exact absurd rfl h
      · exact ⟨t, ht, t, ha, rfl⟩

/-! ### Loop lemmas -/

theorem unclesLoop_none (uncles : List Header) (acc out : List Bytes)
    (h : unclesLoop uncles acc = (out, none)) :
    out = acc ++ uncles.map (fun u => u.EncodeToBytes.toOption.getD []) := by
  induction uncles generalizing acc with
  | nil =>
    rw [unclesLoop] at h
    simp only [Prod.mk.injEq] at h
    simp [h.1]
  | cons u rest ih =>
    rw [unclesLoop] at h
    cases henc : u.EncodeToBytes with
    | error e =>
      rw [henc] at h
      simp at h
    | ok b =>
      rw [henc] at h
      have hout := ih (acc ++ [b]) h
      simp [hout, henc, Except.toOption]

theorem trxLoop_shape (wantedSrc wantedDst : List String) (trxs : List Transaction)
    (metas : List TrxMetaData) (acc : List Bytes) :
    trxLoop wantedSrc wantedDst trxs metas acc = .error .indexOutOfRange ∨
      ∃ out e, trxLoop wantedSrc wantedDst trxs metas acc = .ok (out, e) := by
  induction trxs generalizing metas acc with
  | nil => exact Or.inr ⟨acc, none, rfl⟩
  | cons trx rest ih =>
    cases metas with
    | nil => exact Or.inl rfl
    | cons meta mrest =>
      rw [trxLoop]
      split
      · cases henc : trx.EncodeRLP with
        | error e => exact Or.inr ⟨acc, some e, rfl⟩
        | ok b => exact ih mrest (acc ++ [b])
      · exact ih mrest acc

theorem trxLoop_no_panic (wantedSrc wantedDst : List String) (trxs : List Transaction)
    (metas : List TrxMetaData) (acc : List Bytes) (hlen : trxs.length ≤ metas.length) :
    ∃ out e, trxLoop wantedSrc wantedDst trxs metas acc = .ok (out, e) := by
  induction trxs generalizing metas acc with
  | nil => exact ⟨acc, none, rfl⟩
  | cons trx rest ih =>
    cases metas with
    | nil => simp at hlen
    | cons meta mrest =>
      rw [trxLoop]
      have hlen2 : rest.length ≤ mrest.length := by
        simp only [List.length_cons] at hlen
        omega
      split
      · cases henc : trx.EncodeRLP with
        | error e => exact ⟨acc, some e, rfl⟩
        | ok b => exact ih mrest (acc ++ [b]) hlen2
      · exact ih mrest acc hlen2

theorem trxLoop_none (wantedSrc wantedDst : List String) (trxs : List Transaction)
    (metas : List TrxMetaData) (acc out : List Bytes)
    (h : trxLoop wantedSrc wantedDst trxs metas acc = .ok (out, none)) :
    out = acc ++ ((trxs.zip metas).filter
        (fun tm => checkTransactions wantedSrc wantedDst tm.2.Src tm.2.Dst)).map
        (fun tm => tm.1.EncodeRLP.toOption.getD []) := by
  induction trxs generalizing metas acc with
  | nil =>
    rw [trxLoop] at h
    simp only [Except.ok.injEq, Prod.mk.injEq] at h
    simp [h.1]
  | cons trx rest ih =>
    cases metas with
    | nil => simp [trxLoop] at h
    | cons meta mrest =>
      rw [trxLoop] at h
      rw [List.zip_cons_cons, List.filter_cons]
      split at h
      · next hc =>
        cases henc : trx.EncodeRLP with
        | error e =>
          rw [henc] at h
          simp at h
        | ok b =>
          rw [henc] at h
          have hout := ih mrest (acc ++ [b]) h
          simp only [hc, if_true]
          simp [hout, henc, Except.toOption]
      · next hc =>
        have hout := ih mrest acc h
        simp only [Bool.not_eq_true] at hc
        simp [hc, hout]

theorem receiptsLoop_shape (wantedTopics : List String) (receipts : List Receipt)
    (metas : List ReceiptMetaData) (acc : List Bytes) :
    receiptsLoop wantedTopics receipts metas acc = .error .indexOutOfRange ∨
      ∃ out e, receiptsLoop wantedTopics receipts metas acc = .ok (out, e) := by
  induction receipts generalizing metas acc with
  | nil => exact Or.inr ⟨acc, none, rfl⟩
  | cons receipt rest ih =>
    cases metas with
    | nil => exact Or.inl rfl
    | cons meta mrest =>
      rw [receiptsLoop]
      split
      · cases henc : receipt.EncodeRLP with
        | error e => exact Or.inr ⟨acc, some e, rfl⟩
        | ok b => exact ih mrest (acc ++ [b])
      · exact ih mrest acc

theorem receiptsLoop_no_panic (wantedTopics : List String) (receipts : List Receipt)
    (metas : List ReceiptMetaData) (acc : List Bytes) (hlen : receipts.length ≤ metas.length) :
    ∃ out e, receiptsLoop wantedTopics receipts metas acc = .ok (out, e) := by
  induction receipts generalizing metas acc with
  | nil => exact ⟨acc, none, rfl⟩
  | cons receipt rest ih =>
    cases metas with
    | nil => simp at hlen
    | cons meta mrest =>
      rw [receiptsLoop]
      have hlen2 : rest.length ≤ mrest.length := by
        simp only [List.length_cons] at hlen
        omega
      split
      · cases henc : receipt.EncodeRLP with
        | error e => exact ⟨acc, some e, rfl⟩
        | ok b => exact ih mrest (acc ++ [b]) hlen2
      · exact ih mrest acc hlen2

theorem receiptsLoop_none (wantedTopics : List String) (receipts : List Receipt)
    (metas : List ReceiptMetaData) (acc out : List Bytes)
    (h : receiptsLoop wantedTopics receipts metas acc = .ok (out, none)) :
    out = acc ++ ((receipts.zip metas).filter
        (fun rm => checkReceipts wantedTopics rm.2.Topic0s)).map
        (fun rm => rm.1.EncodeRLP.toOption.getD []) := by
  induction receipts generalizing metas acc with
  | nil =>
    rw [receiptsLoop] at h
    simp only [Except.ok.injEq, Prod.mk.injEq] at h
    simp [h.1]
  | cons receipt rest ih =>
    cases metas with
    | nil => simp [receiptsLoop] at h
    | cons meta mrest =>
      rw [receiptsLoop] at h
      rw [List.zip_cons_cons, List.filter_cons]
      split at h
      · next hc =>
        cases henc : receipt.EncodeRLP with
        | error e =>
          rw [henc] at h
          simp at h
        | ok b =>
          rw [henc] at h
          have hout := ih mrest (acc ++ [b]) h
          simp only [hc, if_true]
          simp [hout, henc, Except.toOption]
      · next hc =>
        have hout := ih mrest acc h
        simp only [Bool.not_eq_true] at hc
        simp [hc, hout]

theorem storageLoop_shape (stateKeyFilters storageKeyFilters : List Hash)
    (lst : List (Hash × List StorageNode)) (m : Option (List (Hash × List (Hash × Bytes)))) :
    storageLoop stateKeyFilters storageKeyFilters lst m = .error .nilMapWrite ∨
      ∃ m2, storageLoop stateKeyFilters storageKeyFilters lst m = .ok m2 := by
  induction lst generalizing m with
  | nil => exact Or.inr ⟨m, rfl⟩
  | cons kv rest ih =>
    cases m with
    | none =>
      rw [storageLoop]
      split
      · exact Or.inl rfl
      · exact ih none
    | some l =>
      rw [storageLoop]
      split
      · exact ih _
      · exact ih (some l)

/-! ### Pass lemmas -/

theorem filterHeaders_skip (f : StreamFilters) (r : ResponsePayload) (p : IPLDPayload)
    (hc : (!f.HeaderFilter.Off && checkRange f.HeaderFilter.StartingBlock f.HeaderFilter.EndingBlock p.BlockNumber) = false) :
    filterHeaders f r p = .ok (f, r, p, none) := by
  simp [filterHeaders, hc]

theorem filterHeaders_run (f : StreamFilters) (r : ResponsePayload) (p : IPLDPayload)
    (hc : (!f.HeaderFilter.Off && checkRange f.HeaderFilter.StartingBlock f.HeaderFilter.EndingBlock p.BlockNumber) = true)
    (hu : f.HeaderFilter.Uncles = false) :
    filterHeaders f r p = .ok (f, { r with HeadersRlp := r.HeadersRlp ++ [p.HeaderRLP] }, p, none) := by
  simp [filterHeaders, hc, hu]

theorem filterHeaders_run_uncles (f : StreamFilters) (r : ResponsePayload) (p : IPLDPayload)
    (out : List Bytes) (e : Option Err)
    (hc : (!f.HeaderFilter.Off && checkRange f.HeaderFilter.StartingBlock f.HeaderFilter.EndingBlock p.BlockNumber) = true)
    (hu : f.HeaderFilter.Uncles = true)
    (hl : unclesLoop p.BlockBody.Uncles r.UnclesRlp = (out, e)) :
    filterHeaders f r p = .ok (f, { r with HeadersRlp := r.HeadersRlp ++ [p.HeaderRLP], UnclesRlp := out }, p, e) := by
  simp [filterHeaders, hc, hu, hl]

theorem filterHeaders_shape (f : StreamFilters) (r : ResponsePayload) (p : IPLDPayload) :
    ∃ hs us e, filterHeaders f r p = .ok (f, { r with HeadersRlp := hs, UnclesRlp := us }, p, e) := by
  by_cases hc : (!f.HeaderFilter.Off && checkRange f.HeaderFilter.StartingBlock f.HeaderFilter.EndingBlock p.BlockNumber) = true
  · by_cases hu : f.HeaderFilter.Uncles = true
    · rcases hlp : unclesLoop p.BlockBody.Uncles r.UnclesRlp with ⟨out, e⟩
      exact ⟨_, _, _, filterHeaders_run_uncles f r p out e hc hu hlp⟩
    · exact ⟨_, r.UnclesRlp, none, filterHeaders_run f r p hc (by simpa using hu)⟩
  · exact ⟨r.HeadersRlp, r.UnclesRlp, none, filterHeaders_skip f r p (by simpa using hc)⟩

theorem filterTransactions_skip (f : StreamFilters) (r : ResponsePayload) (p : IPLDPayload)
    (hc : (!f.TrxFilter.Off && checkRange f.TrxFilter.StartingBlock f.TrxFilter.EndingBlock p.BlockNumber) = false) :
    filterTransactions f r p = .ok (f, r, p, none) := by
  simp [filterTransactions, hc]

theorem filterTransactions_run (f : StreamFilters) (r : ResponsePayload) (p : IPLDPayload)
    (lst : List Bytes) (e : Option Err)
    (hc : (!f.TrxFilter.Off && checkRange f.TrxFilter.StartingBlock f.TrxFilter.EndingBlock p.BlockNumber) = true)
    (hl : trxLoop f.TrxFilter.Src f.TrxFilter.Dst p.BlockBody.Transactions p.TrxMetaData r.TransactionsRlp = .ok (lst, e)) :
    filterTransactions f r p = .ok (f, { r with TransactionsRlp := lst }, p, e) := by
  simp [filterTransactions, hc, hl]

theorem filterTransactions_panic (f : StreamFilters) (r : ResponsePayload) (p : IPLDPayload) (w : GoPanic)
    (hc : (!f.TrxFilter.Off && checkRange f.TrxFilter.StartingBlock f.TrxFilter.EndingBlock p.BlockNumber) = true)
    (hl : trxLoop f.TrxFilter.Src f.TrxFilter.Dst p.BlockBody.Transactions p.TrxMetaData r.TransactionsRlp = .error w) :
    filterTransactions f r p = .error w := by
  simp [filterTransactions, hc, hl]

theorem filterTransactions_shape (f : StreamFilters) (r : ResponsePayload) (p : IPLDPayload) :
    (filterTransactions f r p = .error .indexOutOfRange ∧ p.TrxMetaData.length < p.BlockBody.Transactions.length) ∨
      ∃ ts e, filterTransactions f r p = .ok (f, { r with TransactionsRlp := ts }, p, e) := by
  by_cases hc : (!f.TrxFilter.Off && checkRange f.TrxFilter.StartingBlock f.TrxFilter.EndingBlock p.BlockNumber) = true
  · rcases trxLoop_shape f.TrxFilter.Src f.TrxFilter.Dst p.BlockBody.Transactions p.TrxMetaData r.TransactionsRlp with hl | ⟨out, e, hl⟩
    · left
      refine ⟨filterTransactions_panic f r p _ hc hl, ?_⟩
      by_contra hlen
      obtain ⟨out, e, hok⟩ := trxLoop_no_panic f.TrxFilter.Src f.TrxFilter.Dst p.BlockBody.Transactions p.TrxMetaData r.TransactionsRlp (by omega)
      rw [hok] at hl
      cases hl
    · exact Or.inr ⟨out, e, filterTransactions_run f r p out e hc hl⟩
  · exact Or.inr ⟨r.TransactionsRlp, none, by
      have := filterTransactions_skip f r p (by simpa using hc)
      simpa using this⟩

theorem filerReceipts_skip (f : StreamFilters) (r : ResponsePayload) (p : IPLDPayload)
    (hc : (!f.ReceiptFilter.Off && checkRange f.ReceiptFilter.StartingBlock f.ReceiptFilter.EndingBlock p.BlockNumber) = false) :
    filerReceipts f r p = .ok (f, r, p, none) := by
  simp [filerReceipts, hc]

theorem filerReceipts_run (f : StreamFilters) (r : ResponsePayload) (p : IPLDPayload)
    (lst : List Bytes) (e : Option Err)
    (hc : (!f.ReceiptFilter.Off && checkRange f.ReceiptFilter.StartingBlock f.ReceiptFilter.EndingBlock p.BlockNumber) = true)
    (hl : receiptsLoop f.ReceiptFilter.Topic0s p.Receipts p.ReceiptMetaData r.ReceiptsRlp = .ok (lst, e)) :
    filerReceipts f r p = .ok (f, { r with ReceiptsRlp := lst }, p, e) := by
  simp [filerReceipts, hc, hl]

theorem filerReceipts_panic (f : StreamFilters) (r : ResponsePayload) (p : IPLDPayload) (w : GoPanic)
    (hc : (!f.ReceiptFilter.Off && checkRange f.ReceiptFilter.StartingBlock f.ReceiptFilter.EndingBlock p.BlockNumber) = true)
    (hl : receiptsLoop f.ReceiptFilter.Topic0s p.Receipts p.ReceiptMetaData r.ReceiptsRlp = .error w) :
    filerReceipts f r p = .error w := by
  simp [filerReceipts, hc, hl]

theorem filerReceipts_shape (f : StreamFilters) (r : ResponsePayload) (p : IPLDPayload) :
    (filerReceipts f r p = .error .indexOutOfRange ∧ p.ReceiptMetaData.length < p.Receipts.length) ∨
      ∃ rs e, filerReceipts f r p = .ok (f, { r with ReceiptsRlp := rs }, p, e) := by
  by_cases hc : (!f.ReceiptFilter.Off && checkRange f.ReceiptFilter.StartingBlock f.ReceiptFilter.EndingBlock p.BlockNumber) = true
  · rcases receiptsLoop_shape f.ReceiptFilter.Topic0s p.Receipts p.ReceiptMetaData r.ReceiptsRlp with hl | ⟨out, e, hl⟩
    · left
      refine ⟨filerReceipts_panic f r p _ hc hl, ?_⟩
      by_contra hlen
      obtain ⟨out, e, hok⟩ := receiptsLoop_no_panic f.ReceiptFilter.Topic0s p.Receipts p.ReceiptMetaData r.ReceiptsRlp (by omega)
      rw [hok] at hl
      cases hl
    · exact Or.inr ⟨out, e, filerReceipts_run f r p out e hc hl⟩
  · exact Or.inr ⟨r.ReceiptsRlp, none, by
      have := filerReceipts_skip f r p (by simpa using hc)
      simpa using this⟩

theorem filterState_skip (AddressToKey : String → Hash) (f : StreamFilters) (r : ResponsePayload) (p : IPLDPayload)
    (hc : (!f.StateFilter.Off && checkRange f.StateFilter.StartingBlock f.StateFilter.EndingBlock p.BlockNumber) = false) :
    filterState AddressToKey f r p = .ok (f, { r with StateNodesRlp := some [] }, p, none) := by
  simp [filterState, hc]

theorem filterState_run (AddressToKey : String → Hash) (f : StreamFilters) (r : ResponsePayload) (p : IPLDPayload)
    (hc : (!f.StateFilter.Off && checkRange f.StateFilter.StartingBlock f.StateFilter.EndingBlock p.BlockNumber) = true) :
    filterState AddressToKey f r p = .ok (f,
      { r with StateNodesRlp := some (p.StateNodes.foldl
          (stateStep (f.StateFilter.Addresses.map AddressToKey) f.StateFilter.IntermediateNodes) []) }, p, none) := by
  simp [filterState, hc]

theorem filterState_shape (AddressToKey : String → Hash) (f : StreamFilters) (r : ResponsePayload) (p : IPLDPayload) :
    ∃ m, filterState AddressToKey f r p = .ok (f, { r with StateNodesRlp := some m }, p, none) := by
  by_cases hc : (!f.StateFilter.Off && checkRange f.StateFilter.StartingBlock f.StateFilter.EndingBlock p.BlockNumber) = true
  · exact ⟨_, filterState_run AddressToKey f r p hc⟩
  · exact ⟨[], filterState_skip AddressToKey f r p (by simpa using hc)⟩

theorem filterStorage_skip (AddressToKey HexToKey : String → Hash) (f : StreamFilters) (r : ResponsePayload) (p : IPLDPayload)
    (hc : (!f.StorageFilter.Off && checkRange f.StorageFilter.StartingBlock f.StorageFilter.EndingBlock p.BlockNumber) = false) :
    filterStorage AddressToKey HexToKey f r p = .ok (f, r, p, none) := by
  simp [filterStorage, hc]

theorem filterStorage_run (AddressToKey HexToKey : String → Hash) (f : StreamFilters) (r : ResponsePayload) (p : IPLDPayload)
    (m : Option (List (Hash × List (Hash × Bytes))))
    (hc : (!f.StorageFilter.Off && checkRange f.StorageFilter.StartingBlock f.StorageFilter.EndingBlock p.BlockNumber) = true)
    (hl : storageLoop (f.StorageFilter.Addresses.map AddressToKey) (f.StorageFilter.StorageKeys.map HexToKey) p.StorageNodes r.StorageNodesRlp = .ok m) :
    filterStorage AddressToKey HexToKey f r p = .ok (f, { r with StorageNodesRlp := m }, p, none) := by
  simp [filterStorage, hc, hl]

theorem filterStorage_panic (AddressToKey HexToKey : String → Hash) (f : StreamFilters) (r : ResponsePayload) (p : IPLDPayload) (w : GoPanic)
    (hc : (!f.StorageFilter.Off && checkRange f.StorageFilter.StartingBlock f.StorageFilter.EndingBlock p.BlockNumber) = true)
    (hl : storageLoop (f.StorageFilter.Addresses.map AddressToKey) (f.StorageFilter.StorageKeys.map HexToKey) p.StorageNodes r.StorageNodesRlp = .error w) :
    filterStorage AddressToKey HexToKey f r p = .error w := by
  simp [filterStorage, hc, hl]

theorem filterStorage_shape (AddressToKey HexToKey : String → Hash) (f : StreamFilters) (r : ResponsePayload) (p : IPLDPayload) :
    filterStorage AddressToKey HexToKey f r p = .error .nilMapWrite ∨
      ∃ m, filterStorage AddressToKey HexToKey f r p = .ok (f, { r with StorageNodesRlp := m }, p, none) := by
  by_cases hc : (!f.StorageFilter.Off && checkRange f.StorageFilter.StartingBlock f.StorageFilter.EndingBlock p.BlockNumber) = true
  · rcases storageLoop_shape (f.StorageFilter.Addresses.map AddressToKey) (f.StorageFilter.StorageKeys.map HexToKey) p.StorageNodes r.StorageNodesRlp with hl | ⟨m2, hl⟩
    · exact Or.inl (filterStorage_panic AddressToKey HexToKey f r p _ hc hl)
    · exact Or.inr ⟨m2, filterStorage_run AddressToKey HexToKey f r p m2 hc hl⟩
  · exact Or.inr ⟨r.StorageNodesRlp, by
      have := filterStorage_skip AddressToKey HexToKey f r p (by simpa using hc)
      simpa using this⟩

/-! ### Whole-call path analysis -/

theorem screenFull_cases (aK hK : String → Hash) (f : StreamFilters) (p : IPLDPayload) :
    (∃ w, ScreenResponseFull aK hK f p = (.panic w, f, p) ∧
        (w = GoPanic.indexOutOfRange →
          p.TrxMetaData.length < p.BlockBody.Transactions.length ∨
          p.ReceiptMetaData.length < p.Receipts.length)) ∨
    (∃ e, ScreenResponseFull aK hK f p = (.ret none (some e), f, p)) ∨
    (∃ r1 r2 r3 r4 r5,
        filterHeaders f {} p = .ok (f, r1, p, none) ∧
        filterTransactions f r1 p = .ok (f, r2, p, none) ∧
        filerReceipts f r2 p = .ok (f, r3, p, none) ∧
        filterState aK f r3 p = .ok (f, r4, p, none) ∧
        filterStorage aK hK f r4 p = .ok (f, r5, p, none) ∧
        ScreenResponseFull aK hK f p = (.ret (some r5) none, f, p)) := by
  rcases filterHeaders_shape f {} p with ⟨hs1, us1, e1, h1⟩
  cases e1 with
  | some e => exact Or.inr (Or.inl ⟨e, by simp [ScreenResponseFull, h1]⟩)
  | none =>
  rcases filterTransactions_shape f ⟨hs1, us1, [], [], none, none⟩ p with ⟨herr, hlen⟩ | ⟨ts2, e2, h2⟩
  · exact Or.inl ⟨.indexOutOfRange, by simp [ScreenResponseFull, h1, herr], fun _ => Or.inl hlen⟩
  · cases e2 with
    | some e => exact Or.inr (Or.inl ⟨e, by simp [ScreenResponseFull, h1, h2]⟩)
    | none =>
    rcases filerReceipts_shape f ⟨hs1, us1, ts2, [], none, none⟩ p with ⟨herr, hlen⟩ | ⟨rs3, e3, h3⟩
    · exact Or.inl ⟨.indexOutOfRange, by simp [ScreenResponseFull, h1, h2, herr], fun _ => Or.inr hlen⟩
    · cases e3 with
      | some e => exact Or.inr (Or.inl ⟨e, by simp [ScreenResponseFull, h1, h2, h3]⟩)
      | none =>
      rcases filterState_shape aK f ⟨hs1, us1, ts2, rs3, none, none⟩ p with ⟨m4, h4⟩
      rcases filterStorage_shape aK hK f ⟨hs1, us1, ts2, rs3, some m4, none⟩ p with h5 | ⟨m5, h5⟩
      · exact Or.inl ⟨.nilMapWrite, by simp [ScreenResponseFull, h1, h2, h3, h4, h5],
          fun hw => GoPanic.noConfusion hw⟩
      · exact Or.inr (Or.inr ⟨_, _, _, _, _, h1, h2, h3, h4, h5,
          by simp [ScreenResponseFull, h1, h2, h3, h4, h5]⟩)

theorem screen_success (aK hK : String → Hash) (f : StreamFilters) (p : IPLDPayload)
    (resp : ResponsePayload) (h : ScreenResponse aK hK f p = .ret (some resp) none) :
    ∃ r1 r2 r3 r4,
      filterHeaders f {} p = .ok (f, r1, p, none) ∧
      filterTransactions f r1 p = .ok (f, r2, p, none) ∧
      filerReceipts f r2 p = .ok (f, r3, p, none) ∧
      filterState aK f r3 p = .ok (f, r4, p, none) ∧
      filterStorage aK hK f r4 p = .ok (f, resp, p, none) := by
  rcases screenFull_cases aK hK f p with ⟨w, hw, _⟩ | ⟨e, he⟩ | ⟨r1, r2, r3, r4, r5, h1, h2, h3, h4, h5, heq⟩
  · rw [ScreenResponse, hw] at h
    simp at h
  · rw [ScreenResponse, he] at h
    simp at h
  · have hr : r5 = resp := by
      rw [ScreenResponse, heq] at h
      simpa using h
    exact ⟨r1, r2, r3, r4, h1, h2, h3, h4, hr ▸ h5⟩

/-! ### Field tracking through a successful pass -/

theorem filterHeaders_fields (f : StreamFilters) (r : ResponsePayload) (p : IPLDPayload)
    (f2 : StreamFilters) (r2 : ResponsePayload) (p2 : IPLDPayload) (e : Option Err)
    (h : filterHeaders f r p = .ok (f2, r2, p2, e)) :
    r2.TransactionsRlp = r.TransactionsRlp ∧ r2.ReceiptsRlp = r.ReceiptsRlp ∧
      r2.StateNodesRlp = r.StateNodesRlp ∧ r2.StorageNodesRlp = r.StorageNodesRlp := by
  obtain ⟨hs, us, e2, hsh⟩ := filterHeaders_shape f r p
  rw [hsh] at h
  simp only [Except.ok.injEq, Prod.mk.injEq] at h
  obtain ⟨-, hr, -, -⟩ := h
  rw [← hr]
  exact ⟨rfl, rfl, rfl, rfl⟩

theorem filterTransactions_fields (f : StreamFilters) (r : ResponsePayload) (p : IPLDPayload)
    (f2 : StreamFilters) (r2 : ResponsePayload) (p2 : IPLDPayload) (e : Option Err)
    (h : filterTransactions f r p = .ok (f2, r2, p2, e)) :
    r2.HeadersRlp = r.HeadersRlp ∧ r2.UnclesRlp = r.UnclesRlp ∧
      r2.ReceiptsRlp = r.ReceiptsRlp ∧ r2.StateNodesRlp = r.StateNodesRlp ∧
      r2.StorageNodesRlp = r.StorageNodesRlp := by
  rcases filterTransactions_shape f r p with ⟨herr, -⟩ | ⟨ts, e2, hsh⟩
  · rw [herr] at h
    cases h
  · rw [hsh] at h
    simp only [Except.ok.injEq, Prod.mk.injEq] at h
    obtain ⟨-, hr, -, -⟩ := h
    rw [← hr]
    exact ⟨rfl, rfl, rfl, rfl, rfl⟩

theorem filerReceipts_fields (f : StreamFilters) (r : ResponsePayload) (p : IPLDPayload)
    (f2 : StreamFilters) (r2 : ResponsePayload) (p2 : IPLDPayload) (e : Option Err)
    (h : filerReceipts f r p = .ok (f2, r2, p2, e)) :
    r2.HeadersRlp = r.HeadersRlp ∧ r2.UnclesRlp = r.UnclesRlp ∧
      r2.TransactionsRlp = r.TransactionsRlp ∧ r2.StateNodesRlp = r.StateNodesRlp ∧
      r2.StorageNodesRlp = r.StorageNodesRlp := by
  rcases filerReceipts_shape f r p with ⟨herr, -⟩ | ⟨rs, e2, hsh⟩
  · rw [herr] at h
    cases h
  · rw [hsh] at h
    simp only [Except.ok.injEq, Prod.mk.injEq] at h
    obtain ⟨-, hr, -, -⟩ := h
    rw [← hr]
    exact ⟨rfl, rfl, rfl, rfl, rfl⟩

theorem filterState_fields (aK : String → Hash) (f : StreamFilters) (r : ResponsePayload) (p : IPLDPayload)
    (f2 : StreamFilters) (r2 : ResponsePayload) (p2 : IPLDPayload) (e : Option Err)
    (h : filterState aK f r p = .ok (f2, r2, p2, e)) :
    r2.HeadersRlp = r.HeadersRlp ∧ r2.UnclesRlp = r.UnclesRlp ∧
      r2.TransactionsRlp = r.TransactionsRlp ∧ r2.ReceiptsRlp = r.ReceiptsRlp ∧
      r2.StorageNodesRlp = r.StorageNodesRlp ∧ ∃ m, r2.StateNodesRlp = some m := by
  obtain ⟨m, hsh⟩ := filterState_shape aK f r p
  rw [hsh] at h
  simp only [Except.ok.injEq, Prod.mk.injEq] at h
  obtain ⟨-, hr, -, -⟩ := h
  rw [← hr]
  exact ⟨rfl, rfl, rfl, rfl, rfl, m, rfl⟩

theorem filterStorage_fields (aK hK : String → Hash) (f : StreamFilters) (r : ResponsePayload) (p : IPLDPayload)
    (f2 : StreamFilters) (r2 : ResponsePayload) (p2 : IPLDPayload) (e : Option Err)
    (h : filterStorage aK hK f r p = .ok (f2, r2, p2, e)) :
    r2.HeadersRlp = r.HeadersRlp ∧ r2.UnclesRlp = r.UnclesRlp ∧
      r2.TransactionsRlp = r.TransactionsRlp ∧ r2.ReceiptsRlp = r.ReceiptsRlp ∧
      r2.StateNodesRlp = r.StateNodesRlp := by
  rcases filterStorage_shape aK hK f r p with herr | ⟨m, hsh⟩
  · rw [herr] at h
    cases h
  · rw [hsh] at h
    simp only [Except.ok.injEq, Prod.mk.injEq] at h
    obtain ⟨-, hr, -, -⟩ := h
    rw [← hr]
    exact ⟨rfl, rfl, rfl, rfl, rfl⟩

/-! ### State-node fold lemmas -/

theorem stateStep_lookup_ne (keyFilters : List Hash) (flag : Bool)
    (acc : List (Hash × Bytes)) (kv : Hash × StateNode) (k : Hash) (hk : kv.1 ≠ k) :
    mapLookup (stateStep keyFilters flag acc kv) k = mapLookup acc k := by
  rw [stateStep]
  split
  · split
    · exact mapLookup_mapInsert_ne acc kv.1 k kv.2.Value (fun c => hk c.symm)
    · rfl
  · rfl

theorem stateFold_lookup_notmem (keyFilters : List Hash) (flag : Bool)
    (l : List (Hash × StateNode)) (k : Hash) (acc : List (Hash × Bytes))
    (hk : ∀ kv ∈ l, kv.1 ≠ k) :
    mapLookup (l.foldl (stateStep keyFilters flag) acc) k = mapLookup acc k := by
  induction l generalizing acc with
  | nil => rfl
  | cons q rest ih =>
    rw [List.foldl_cons]
    rw [ih (stateStep keyFilters flag acc q) (fun kv hkv => hk kv (List.mem_cons_of_mem q hkv))]
    exact stateStep_lookup_ne keyFilters flag acc q k (hk q (List.mem_cons_self q rest))

theorem stateFold_lookup (keyFilters : List Hash) (flag : Bool)
    (l : List (Hash × StateNode)) (k : Hash) (node : StateNode)
    (hnodup : (l.map Prod.fst).Nodup) (hmem : (k, node) ∈ l)
    (acc : List (Hash × Bytes)) (hacc : mapLookup acc k = none) :
    mapLookup (l.foldl (stateStep keyFilters flag) acc) k =
      if (checkNodeKeys keyFilters k && (node.Leaf || flag)) = true then some node.Value else none := by
  induction l generalizing acc with
  | nil => cases hmem
  | cons q rest ih =>
    rw [List.map_cons, List.nodup_cons] at hnodup
    rcases List.mem_cons.mp hmem with heq | hrest
    · subst heq
      rw [List.foldl_cons]
      have hnot : ∀ kv ∈ rest, kv.1 ≠ k := by
        intro kv hkv
        intro hc
        have hm : kv.1 ∈ rest.map Prod.fst := List.mem_map_of_mem Prod.fst hkv
        rw [hc] at hm
        exact hnodup.1 hm
      rw [stateFold_lookup_notmem keyFilters flag rest k _ hnot]
      rw [stateStep]
      by_cases hck : checkNodeKeys keyFilters k = true
      · rw [if_pos hck]
        by_cases hlf : (node.Leaf || flag) = true
        · rw [if_pos hlf, if_pos (by simp [hck, hlf])]
          exact mapLookup_mapInsert_self acc k node.Value
        · rw [if_neg hlf, if_neg (by simp [hck]; simpa using hlf), hacc]
      · rw [if_neg hck, if_neg (by simp; intro hc; exact absurd hc hck), hacc]
    · have hq : q.1 ≠ k := by
        intro hc
        exact hnodup.1 (hc ▸ List.mem_map_of_mem Prod.fst hrest)
      rw [List.foldl_cons]
      rw [ih hnodup.2 hrest (stateStep keyFilters flag acc q)
        (by rw [stateStep_lookup_ne keyFilters flag acc q k hq]; exact hacc)]

/-! ### Claim theorems -/

/-- C2: checkRange start end actual returns true iff actual ≥ start and
(end ≤ 0 or actual ≤ end); in particular it is true for (0,0,N) for every
N ≥ 0, true for (100,0,500), false for (100,200,50), true for
(100,200,150), and false for (100,200,300). -/
theorem C2_checkRange_spec (start end_ actual : Int) :
    (checkRange start end_ actual = true ↔ (actual ≥ start ∧ (end_ ≤ 0 ∨ actual ≤ end_)))
    ∧ (0 ≤ actual → checkRange 0 0 actual = true)
    ∧ checkRange 100 0 500 = true
    ∧ checkRange 100 200 50 = false
    ∧ checkRange 100 200 150 = true
    ∧ checkRange 100 200 300 = false := by
  refine ⟨checkRange_iff start end_ actual, ?_, by decide, by decide, by decide, by decide⟩
  intro h
  rw [checkRange_iff]
  exact ⟨h, Or.inl le_rfl⟩

theorem C2_checkRange_spec_witness : checkRange 0 0 3 = true :=
  (C2_checkRange_spec 0 0 3).2.1 (by decide)

def c3Filters : StreamFilters :=
  ⟨⟨true, 0, 0, false⟩, ⟨false, 0, 0, ["0xA"], ["0xB"]⟩, ⟨true, 0, 0, []⟩,
    ⟨true, 0, 0, [], false⟩, ⟨true, 0, 0, [], []⟩⟩

def c3Payload : IPLDPayload :=
  ⟨1, [], ⟨[], [⟨.ok [4]⟩, ⟨.ok [5]⟩]⟩, [⟨"0xZ", "0xB"⟩, ⟨"0xZ", "0xC"⟩], [], [], [], []⟩

/-- C3: in an enabled, in-range transaction pass, a transaction matches
when both wanted address sets are empty; otherwise it matches iff its
metadata src is in the wanted source set or its dst is in the wanted
destination set (OR, not AND); and the pass appends exactly the RLP
encodings of the matching transactions. -/
theorem C3_transaction_match_spec (wantedSrc wantedDst : List String) (actualSrc actualDst : String)
    (f : StreamFilters) (r r2 : ResponsePayload) (p : IPLDPayload) (f2 : StreamFilters) (p2 : IPLDPayload)
    (hoff : f.TrxFilter.Off = false)
    (hrange : checkRange f.TrxFilter.StartingBlock f.TrxFilter.EndingBlock p.BlockNumber = true)
    (hok : filterTransactions f r p = .ok (f2, r2, p2, none)) :
    ((wantedSrc = [] ∧ wantedDst = []) → checkTransactions wantedSrc wantedDst actualSrc actualDst = true)
    ∧ (¬(wantedSrc = [] ∧ wantedDst = []) →
        (checkTransactions wantedSrc wantedDst actualSrc actualDst = true ↔
          (actualSrc ∈ wantedSrc ∨ actualDst ∈ wantedDst)))
    ∧ r2.TransactionsRlp = r.TransactionsRlp ++
        ((p.BlockBody.Transactions.zip p.TrxMetaData).filter
          (fun tm => checkTransactions f.TrxFilter.Src f.TrxFilter.Dst tm.2.Src tm.2.Dst)).map
          (fun tm => tm.1.EncodeRLP.toOption.getD []) := by
  refine ⟨?_, ?_, ?_⟩
  · rintro ⟨rfl, rfl⟩
    rw [checkTransactions_iff]
    exact Or.inl ⟨rfl, rfl⟩
  · intro hne
    rw [checkTransactions_iff]
    constructor
    · rintro (hboth | hs | hd)
      · exact absurd hboth hne
      · exact Or.inl hs
      · exact Or.inr hd
    · exact fun h2 => Or.inr h2
  · have hc : (!f.TrxFilter.Off && checkRange f.TrxFilter.StartingBlock f.TrxFilter.EndingBlock p.BlockNumber) = true := by
      simp [hoff, hrange]
    cases hl : trxLoop f.TrxFilter.Src f.TrxFilter.Dst p.BlockBody.Transactions p.TrxMetaData r.TransactionsRlp with
    | error w =>
      rw [filterTransactions_panic f r p w hc hl] at hok
      cases hok
    | ok pr =>
      obtain ⟨lst, e⟩ := pr
      rw [filterTransactions_run f r p lst e hc hl] at hok
      simp only [Except.ok.injEq, Prod.mk.injEq] at hok
      obtain ⟨-, hr2, -, he⟩ := hok
      subst he
      have hlst := trxLoop_none f.TrxFilter.Src f.TrxFilter.Dst p.BlockBody.Transactions p.TrxMetaData r.TransactionsRlp lst hl
      rw [← hr2]
      exact hlst

theorem C3_transaction_match_spec_witness :
    c3Filters.TrxFilter.Off = false
    ∧ checkRange c3Filters.TrxFilter.StartingBlock c3Filters.TrxFilter.EndingBlock c3Payload.BlockNumber = true
    ∧ filterTransactions c3Filters {} c3Payload =
        .ok (c3Filters, ⟨[], [], [[4]], [], none, none⟩, c3Payload, none)
    ∧ (checkTransactions ["0xA"] ["0xB"] ("0xZ") ("0xB") = true ↔
        (("0xZ" : String) ∈ (["0xA"] : List String) ∨ ("0xB" : String) ∈ (["0xB"] : List String)))
    ∧ (⟨[], [], [[4]], [], none, none⟩ : ResponsePayload).TransactionsRlp =
        ({} : ResponsePayload).TransactionsRlp ++
          ((c3Payload.BlockBody.Transactions.zip c3Payload.TrxMetaData).filter
            (fun tm => checkTransactions c3Filters.TrxFilter.Src c3Filters.TrxFilter.Dst tm.2.Src tm.2.Dst)).map
            (fun tm => tm.1.EncodeRLP.toOption.getD []) :=
  ⟨by decide, by decide, by decide,
    (C3_transaction_match_spec ["0xA"] ["0xB"] ("0xZ") ("0xB") c3Filters {}
      ⟨[], [], [[4]], [], none, none⟩ c3Payload c3Filters c3Payload
      (by decide) (by decide) (by decide)).2.1 (by decide),
    (C3_transaction_match_spec ["0xA"] ["0xB"] ("0xZ") ("0xB") c3Filters {}
      ⟨[], [], [[4]], [], none, none⟩ c3Payload c3Filters c3Payload
      (by decide) (by decide) (by decide)).2.2⟩

def c4Filters : StreamFilters :=
  ⟨⟨true, 0, 0, false⟩, ⟨true, 0, 0, [], []⟩, ⟨false, 0, 0, ["0x1", "0x2"]⟩,
    ⟨true, 0, 0, [], false⟩, ⟨true, 0, 0, [], []⟩⟩

def c4Payload : IPLDPayload :=
  ⟨1, [], ⟨[], []⟩, [], [⟨.ok [6]⟩, ⟨.ok [7]⟩], [⟨["0x2", "0x9"]⟩, ⟨["0x3"]⟩], [], []⟩

/-- C4: in an enabled, in-range receipt pass, a receipt matches when the
wanted topic0 set is empty, and otherwise iff its topic0 set intersects
the wanted set; and the pass appends exactly the RLP encodings of the
matching receipts. -/
theorem C4_receipt_match_spec (wantedTopics actualTopics : List String)
    (f : StreamFilters) (r r2 : ResponsePayload) (p : IPLDPayload) (f2 : StreamFilters) (p2 : IPLDPayload)
    (hoff : f.ReceiptFilter.Off = false)
    (hrange : checkRange f.ReceiptFilter.StartingBlock f.ReceiptFilter.EndingBlock p.BlockNumber = true)
    (hok : filerReceipts f r p = .ok (f2, r2, p2, none)) :
    (wantedTopics = [] → checkReceipts wantedTopics actualTopics = true)
    ∧ (checkReceipts wantedTopics actualTopics = true ↔
        (wantedTopics = [] ∨ ∃ t, t ∈ wantedTopics ∧ t ∈ actualTopics))
    ∧ r2.ReceiptsRlp = r.ReceiptsRlp ++
        ((p.Receipts.zip p.ReceiptMetaData).filter
          (fun rm => checkReceipts f.ReceiptFilter.Topic0s rm.2.Topic0s)).map
          (fun rm => rm.1.EncodeRLP.toOption.getD []) := by
  refine ⟨?_, checkReceipts_iff wantedTopics actualTopics, ?_⟩
  · rintro rfl
    rw [checkReceipts_iff]
    exact Or.inl rfl
  · have hc : (!f.ReceiptFilter.Off && checkRange f.ReceiptFilter.StartingBlock f.ReceiptFilter.EndingBlock p.BlockNumber) = true := by
      simp [hoff, hrange]
    cases hl : receiptsLoop f.ReceiptFilter.Topic0s p.Receipts p.ReceiptMetaData r.ReceiptsRlp with
    | error w =>
      rw [filerReceipts_panic f r p w hc hl] at hok
      cases hok
    | ok pr =>
      obtain ⟨lst, e⟩ := pr
      rw [filerReceipts_run f r p lst e hc hl] at hok
      simp only [Except.ok.injEq, Prod.mk.injEq] at hok
      obtain ⟨-, hr2, -, he⟩ := hok
      subst he
      have hlst := receiptsLoop_none f.ReceiptFilter.Topic0s p.Receipts p.ReceiptMetaData r.ReceiptsRlp lst hl
      rw [← hr2]
      exact hlst

theorem C4_receipt_match_spec_witness :
    c4Filters.ReceiptFilter.Off = false
    ∧ checkRange c4Filters.ReceiptFilter.StartingBlock c4Filters.ReceiptFilter.EndingBlock c4Payload.BlockNumber = true
    ∧ filerReceipts c4Filters {} c4Payload =
        .ok (c4Filters, ⟨[], [], [], [[6]], none, none⟩, c4Payload, none)
    ∧ checkReceipts ["0x1", "0x2"] ["0x2", "0x9"] = true
    ∧ checkReceipts ["0x1", "0x2"] ["0x3"] = false
    ∧ (⟨[], [], [], [[6]], none, none⟩ : ResponsePayload).ReceiptsRlp =
        ({} : ResponsePayload).ReceiptsRlp ++
          ((c4Payload.Receipts.zip c4Payload.ReceiptMetaData).filter
            (fun rm => checkReceipts c4Filters.ReceiptFilter.Topic0s rm.2.Topic0s)).map
            (fun rm => rm.1.EncodeRLP.toOption.getD []) :=
  ⟨by decide, by decide, by decide, by decide, by decide,
    (C4_receipt_match_spec ["0x1", "0x2"] ["0x2", "0x9"] c4Filters {}
      ⟨[], [], [], [[6]], none, none⟩ c4Payload c4Filters c4Payload
      (by decide) (by decide) (by decide)).2.2⟩

/-- C1: counterexample to the claim.  With every other filter off, an
enabled storage filter with range (0,0) (match every block) and empty
address/storage-key sets (match every key), and a payload at block 1
carrying one storage-node group under state key 5, the claim says
ScreenResponse creates an entry in the response's storage-node mapping
keyed by 5.  Instead the call hits the Go runtime panic "assignment to
entry in nil map": ScreenResponse allocates the response with
new(ResponsePayload), which leaves StorageNodesRlp nil, and filterStorage
assigns response.StorageNodesRlp[stateKey] without ever making the outer
map. -/
theorem C1_storage_nil_map_panic :
    ScreenResponse (fun _ => 0) (fun _ => 0)
      ⟨⟨true, 0, 0, false⟩, ⟨true, 0, 0, [], []⟩, ⟨true, 0, 0, []⟩,
        ⟨true, 0, 0, [], false⟩, ⟨false, 0, 0, [], []⟩⟩
      ⟨1, [0], ⟨[], []⟩, [], [], [], [], [(5, [⟨7, [1, 2]⟩])]⟩ = .panic .nilMapWrite := by
  decide

/-- Holds of a call outcome when it is not a (response, error) pair that
carries both a response and an error, or neither. -/
def retNeverPartial : GoOutcome → Prop
  | .ret resp e => (resp.isSome = true ↔ e = none)
  | .panic _ => True

/-- C7: every (response, error) pair ScreenResponse actually returns is
exclusive: a response exactly when there is no error, never a partially
filled response alongside an error.  The claim's other half — that a run
in which no encoding fails returns a response with no error — is false:
with no uncles, transactions or receipts at all (so no RLP encoding is
even attempted) and an enabled, in-range storage filter whose state-key
set matches, the call panics on the nil storage map and returns nothing. -/
theorem C7_no_partial_response_but_panics :
    (∀ (aK hK : String → Hash) (f : StreamFilters) (p : IPLDPayload),
        retNeverPartial (ScreenResponse aK hK f p))
    ∧ ScreenResponse (fun _ => 1) (fun _ => 1)
        ⟨⟨true, 0, 0, false⟩, ⟨true, 0, 0, [], []⟩, ⟨true, 0, 0, []⟩,
          ⟨true, 0, 0, [], false⟩, ⟨false, 0, 0, [], []⟩⟩
        ⟨2, [3], ⟨[], []⟩, [], [], [], [], [(9, [])]⟩ = .panic .nilMapWrite := by
  constructor
  · intro aK hK f p
    rcases screenFull_cases aK hK f p with ⟨w, hw, -⟩ | ⟨e, he⟩ | ⟨r1, r2, r3, r4, r5, -, -, -, -, -, heq⟩
    · rw [ScreenResponse, hw]
      simp [retNeverPartial]
    · rw [ScreenResponse, he]
      simp [retNeverPartial]
    · rw [ScreenResponse, heq]
      simp [retNeverPartial]
  · decide

/-- C8: one ScreenResponse call leaves both of its inputs unchanged: the
final StreamFilters and IPLDPayload states exposed by the embedding are
equal to the arguments, on every path (return or panic). -/
theorem C8_inputs_unmutated (aK hK : String → Hash) (f : StreamFilters) (p : IPLDPayload) :
    (ScreenResponseFull aK hK f p).2.1 = f ∧ (ScreenResponseFull aK hK f p).2.2 = p := by
  rcases screenFull_cases aK hK f p with ⟨w, hw, -⟩ | ⟨e, he⟩ | ⟨r1, r2, r3, r4, r5, -, -, -, -, -, heq⟩
  · rw [hw]
    exact ⟨rfl, rfl⟩
  · rw [he]
    exact ⟨rfl, rfl⟩
  · rw [heq]
    exact ⟨rfl, rfl⟩

/-- C9: when the metadata arrays are positionally aligned with their data
arrays (equal lengths), the transaction and receipt passes never read an
index out of bounds, so the call can never end in the index-out-of-range
panic. -/
theorem C9_aligned_metadata_no_panic (aK hK : String → Hash) (f : StreamFilters) (p : IPLDPayload)
    (htrx : p.TrxMetaData.length = p.BlockBody.Transactions.length)
    (hrec : p.ReceiptMetaData.length = p.Receipts.length) :
    ScreenResponse aK hK f p ≠ .panic .indexOutOfRange := by
  intro h
  rcases screenFull_cases aK hK f p with ⟨w, hw, himp⟩ | ⟨e, he⟩ | ⟨r1, r2, r3, r4, r5, -, -, -, -, -, heq⟩
  · rw [ScreenResponse, hw] at h
    simp only [Prod.fst] at h
    have hww : w = GoPanic.indexOutOfRange := by
      cases h
      rfl
    rcases himp hww with hl | hl <;> omega
  · rw [ScreenResponse, he] at h
    cases h
  · rw [ScreenResponse, heq] at h
    cases h

def c9Filters : StreamFilters :=
  ⟨⟨false, 0, 0, true⟩, ⟨false, 0, 0, [], []⟩, ⟨false, 0, 0, []⟩,
    ⟨false, 0, 0, [], false⟩, ⟨true, 0, 0, [], []⟩⟩

def c9Payload : IPLDPayload :=
  ⟨7, [], ⟨[], [⟨.ok [1]⟩]⟩, [⟨"a", "b"⟩], [⟨.ok [2]⟩], [⟨[]⟩], [], []⟩

theorem C9_aligned_metadata_no_panic_witness :
    c9Payload.TrxMetaData.length = c9Payload.BlockBody.Transactions.length
    ∧ c9Payload.ReceiptMetaData.length = c9Payload.Receipts.length
    ∧ ScreenResponse (fun _ => 0) (fun _ => 0) c9Filters c9Payload ≠ .panic .indexOutOfRange :=
  ⟨by decide, by decide,
    C9_aligned_metadata_no_panic (fun _ => 0) (fun _ => 0) c9Filters c9Payload
      (by decide) (by decide)⟩

/-- C5: on every successfully returned response, each category whose
filter is off is empty: no headers or uncles, no transactions, no
receipts, a present-but-empty state-node mapping, an absent (nil)
storage-node mapping; and the state-node mapping is present on every
successful call regardless of the state filter. -/
theorem C5_off_filters_empty (aK hK : String → Hash) (f : StreamFilters) (p : IPLDPayload)
    (resp : ResponsePayload) (h : ScreenResponse aK hK f p = .ret (some resp) none) :
    (f.HeaderFilter.Off = true → resp.HeadersRlp = [] ∧ resp.UnclesRlp = [])
    ∧ (f.TrxFilter.Off = true → resp.TransactionsRlp = [])
    ∧ (f.ReceiptFilter.Off = true → resp.ReceiptsRlp = [])
    ∧ (f.StateFilter.Off = true → resp.StateNodesRlp = some [])
    ∧ (f.StorageFilter.Off = true → resp.StorageNodesRlp = none)
    ∧ resp.StateNodesRlp.isSome = true := by
  obtain ⟨r1, r2, r3, r4, h1, h2, h3, h4, h5⟩ := screen_success aK hK f p resp h
  have F1 := filterHeaders_fields f {} p f r1 p none h1
  have F2 := filterTransactions_fields f r1 p f r2 p none h2
  have F3 := filerReceipts_fields f r2 p f r3 p none h3
  have F4 := filterState_fields aK f r3 p f r4 p none h4
  have F5 := filterStorage_fields aK hK f r4 p f resp p none h5
  refine ⟨?_, ?_, ?_, ?_, ?_, ?_⟩
  · intro hoff
    have hskip := filterHeaders_skip f {} p (by simp [hoff])
    rw [hskip] at h1
    simp only [Except.ok.injEq, Prod.mk.injEq] at h1
    obtain ⟨-, hr1, -, -⟩ := h1
    constructor
    · rw [F5.1, F4.1, F3.1, F2.1, ← hr1]
    · rw [F5.2.1, F4.2.1, F3.2.1, F2.2.1, ← hr1]
  · intro hoff
    have hskip := filterTransactions_skip f r1 p (by simp [hoff])
    rw [hskip] at h2
    simp only [Except.ok.injEq, Prod.mk.injEq] at h2
    obtain ⟨-, hr2, -, -⟩ := h2
    rw [F5.2.2.1, F4.2.2.1, F3.2.2.1, ← hr2, F1.1]
  · intro hoff
    have hskip := filerReceipts_skip f r2 p (by simp [hoff])
    rw [hskip] at h3
    simp only [Except.ok.injEq, Prod.mk.injEq] at h3
    obtain ⟨-, hr3, -, -⟩ := h3
    rw [F5.2.2.2.1, F4.2.2.2.1, ← hr3, F2.2.2.1, F1.2.1]
  · intro hoff
    have hskip := filterState_skip aK f r3 p (by simp [hoff])
    rw [hskip] at h4
    simp only [Except.ok.injEq, Prod.mk.injEq] at h4
    obtain ⟨-, hr4, -, -⟩ := h4
    rw [F5.2.2.2.2, ← hr4]
  · intro hoff
    have hskip := filterStorage_skip aK hK f r4 p (by simp [hoff])
    rw [hskip] at h5
    simp only [Except.ok.injEq, Prod.mk.injEq] at h5
    obtain ⟨-, hr5, -, -⟩ := h5
    rw [← hr5, F4.2.2.2.2.1, F3.2.2.2.2, F2.2.2.2.2, F1.2.2.2]
  · obtain ⟨m, hm⟩ := F4.2.2.2.2.2
    rw [F5.2.2.2.2, hm]
    rfl

def c5Filters : StreamFilters :=
  ⟨⟨true, 7, 9, true⟩, ⟨true, 7, 9, ["0xA"], ["0xB"]⟩, ⟨true, 7, 9, ["0x1"]⟩,
    ⟨true, 7, 9, ["0xC"], true⟩, ⟨true, 7, 9, ["0xD"], ["0x2"]⟩⟩

def c5Payload : IPLDPayload :=
  ⟨10, [1], ⟨[⟨.ok [2]⟩], [⟨.ok [3]⟩]⟩, [⟨"s", "d"⟩], [⟨.ok [4]⟩], [⟨["t"]⟩],
    [(1, ⟨true, [5]⟩)], [(2, [⟨3, [6]⟩])]⟩

def c5Resp : ResponsePayload := ⟨[], [], [], [], some [], none⟩

theorem C5_off_filters_empty_witness :
    ScreenResponse (fun _ => 3) (fun _ => 3) c5Filters c5Payload = .ret (some c5Resp) none
    ∧ ((c5Filters.HeaderFilter.Off = true → c5Resp.HeadersRlp = [] ∧ c5Resp.UnclesRlp = [])
      ∧ (c5Filters.TrxFilter.Off = true → c5Resp.TransactionsRlp = [])
      ∧ (c5Filters.ReceiptFilter.Off = true → c5Resp.ReceiptsRlp = [])
      ∧ (c5Filters.StateFilter.Off = true → c5Resp.StateNodesRlp = some [])
      ∧ (c5Filters.StorageFilter.Off = true → c5Resp.StorageNodesRlp = none)
      ∧ c5Resp.StateNodesRlp.isSome = true) :=
  ⟨by decide,
    C5_off_filters_empty (fun _ => 3) (fun _ => 3) c5Filters c5Payload c5Resp (by decide)⟩

/-- C6: in an enabled, in-range state pass on a successful call, a state
node whose key is in the payload (keys pairwise distinct) ends up in the
response's state mapping under its trie key with its raw value iff its
key matches the derived key filter (empty set matches all) and it is a
leaf node or intermediate nodes were requested; in particular a matching
intermediate node is dropped when the flag is off. -/
theorem C6_state_leaf_intermediate (aK hK : String → Hash) (f : StreamFilters) (p : IPLDPayload)
    (resp : ResponsePayload) (k : Hash) (node : StateNode)
    (hoff : f.StateFilter.Off = false)
    (hrange : checkRange f.StateFilter.StartingBlock f.StateFilter.EndingBlock p.BlockNumber = true)
    (hsucc : ScreenResponse aK hK f p = .ret (some resp) none)
    (hnodup : (p.StateNodes.map Prod.fst).Nodup)
    (hmem : (k, node) ∈ p.StateNodes) :
    ∃ m, resp.StateNodesRlp = some m ∧
      mapLookup m k =
        (if (checkNodeKeys (f.StateFilter.Addresses.map aK) k && (node.Leaf || f.StateFilter.IntermediateNodes)) = true
         then some node.Value else none) := by
  obtain ⟨r1, r2, r3, r4, h1, h2, h3, h4, h5⟩ := screen_success aK hK f p resp hsucc
  have F5 := filterStorage_fields aK hK f r4 p f resp p none h5
  have hrun := filterState_run aK f r3 p (by simp [hoff, hrange])
  rw [hrun] at h4
  simp only [Except.ok.injEq, Prod.mk.injEq] at h4
  obtain ⟨-, hr4, -, -⟩ := h4
  refine ⟨p.StateNodes.foldl
      (stateStep (f.StateFilter.Addresses.map aK) f.StateFilter.IntermediateNodes) [], ?_, ?_⟩
  · rw [F5.2.2.2.2, ← hr4]
  · exact stateFold_lookup (f.StateFilter.Addresses.map aK) f.StateFilter.IntermediateNodes
      p.StateNodes k node hnodup hmem [] rfl

def c6Filters : StreamFilters :=
  ⟨⟨true, 0, 0, false⟩, ⟨true, 0, 0, [], []⟩, ⟨true, 0, 0, []⟩,
    ⟨false, 0, 0, [], false⟩, ⟨true, 0, 0, [], []⟩⟩

def c6Payload : IPLDPayload :=
  ⟨1, [], ⟨[], []⟩, [], [], [], [(5, ⟨true, [9]⟩), (6, ⟨false, [7]⟩)], []⟩

def c6Resp : ResponsePayload := ⟨[], [], [], [], some [(5, [9])], none⟩

theorem C6_state_leaf_intermediate_witness :
    c6Filters.StateFilter.Off = false
    ∧ checkRange c6Filters.StateFilter.StartingBlock c6Filters.StateFilter.EndingBlock c6Payload.BlockNumber = true
    ∧ ScreenResponse (fun _ => 0) (fun _ => 0) c6Filters c6Payload = .ret (some c6Resp) none
    ∧ (∃ m, c6Resp.StateNodesRlp = some m ∧
        mapLookup m 5 =
          (if (checkNodeKeys (c6Filters.StateFilter.Addresses.map (fun _ => 0)) 5 &&
              ((⟨true, [9]⟩ : StateNode).Leaf || c6Filters.StateFilter.IntermediateNodes)) = true
           then some (⟨true, [9]⟩ : StateNode).Value else none)) :=
  ⟨by decide, by decide, by decide,
    C6_state_leaf_intermediate (fun _ => 0) (fun _ => 0) c6Filters c6Payload c6Resp 5 ⟨true, [9]⟩
      (by decide) (by decide) (by decide) (by decide) (by decide)⟩

/-- Specification-side restatement for C10: the transaction encodings an
enabled, in-range pass should produce, listed in payload order. -/
def TransactionsRlpInPayloadOrder (f : StreamFilters) (p : IPLDPayload) : List Bytes :=
  if (!f.TrxFilter.Off && checkRange f.TrxFilter.StartingBlock f.TrxFilter.EndingBlock p.BlockNumber) then
    ((p.BlockBody.Transactions.zip p.TrxMetaData).filter
      (fun tm => checkTransactions f.TrxFilter.Src f.TrxFilter.Dst tm.2.Src tm.2.Dst)).map
      (fun tm => tm.1.EncodeRLP.toOption.getD [])
  else []

/-- Specification-side restatement for C10: the receipt encodings an
enabled, in-range pass should produce, listed in payload order. -/
def ReceiptsRlpInPayloadOrder (f : StreamFilters) (p : IPLDPayload) : List Bytes :=
  if (!f.ReceiptFilter.Off && checkRange f.ReceiptFilter.StartingBlock f.ReceiptFilter.EndingBlock p.BlockNumber) then
    ((p.Receipts.zip p.ReceiptMetaData).filter
      (fun rm => checkReceipts f.ReceiptFilter.Topic0s rm.2.Topic0s)).map
      (fun rm => rm.1.EncodeRLP.toOption.getD [])
  else []

/-- Specification-side restatement for C10: the uncle encodings an
enabled, in-range header pass with uncles requested should produce, in
payload order. -/
def UnclesRlpInPayloadOrder (f : StreamFilters) (p : IPLDPayload) : List Bytes :=
  if ((!f.HeaderFilter.Off && checkRange f.HeaderFilter.StartingBlock f.HeaderFilter.EndingBlock p.BlockNumber)
      && f.HeaderFilter.Uncles) then
    p.BlockBody.Uncles.map (fun u => u.EncodeToBytes.toOption.getD [])
  else []

/-- C10: a successful call lists matched transactions, matched receipts
and uncle encodings in the response in exactly the relative order they
have in the payload arrays. -/
theorem C10_payload_order (aK hK : String → Hash) (f : StreamFilters) (p : IPLDPayload)
    (resp : ResponsePayload) (h : ScreenResponse aK hK f p = .ret (some resp) none) :
    resp.TransactionsRlp = TransactionsRlpInPayloadOrder f p
    ∧ resp.ReceiptsRlp = ReceiptsRlpInPayloadOrder f p
    ∧ resp.UnclesRlp = UnclesRlpInPayloadOrder f p := by
  obtain ⟨r1, r2, r3, r4, h1, h2, h3, h4, h5⟩ := screen_success aK hK f p resp h
  have F1 := filterHeaders_fields f {} p f r1 p none h1
  have F2 := filterTransactions_fields f r1 p f r2 p none h2
  have F3 := filerReceipts_fields f r2 p f r3 p none h3
  have F4 := filterState_fields aK f r3 p f r4 p none h4
  have F5 := filterStorage_fields aK hK f r4 p f resp p none h5
  have hr1T : r1.TransactionsRlp = [] := by rw [F1.1]
  have hr2R : r2.ReceiptsRlp = [] := by rw [F2.2.2.1, F1.2.1]
  refine ⟨?_, ?_, ?_⟩
  · rw [F5.2.2.1, F4.2.2.1, F3.2.2.1, TransactionsRlpInPayloadOrder]
    by_cases hc : (!f.TrxFilter.Off && checkRange f.TrxFilter.StartingBlock f.TrxFilter.EndingBlock p.BlockNumber) = true
    · rw [if_pos hc]
      cases hl : trxLoop f.TrxFilter.Src f.TrxFilter.Dst p.BlockBody.Transactions p.TrxMetaData r1.TransactionsRlp with
      | error w =>
        rw [filterTransactions_panic f r1 p w hc hl] at h2
        cases h2
      | ok pr =>
        obtain ⟨lst, e⟩ := pr
        rw [filterTransactions_run f r1 p lst e hc hl] at h2
        simp only [Except.ok.injEq, Prod.mk.injEq] at h2
        obtain ⟨-, hr2, -, he⟩ := h2
        subst he
        have hlst := trxLoop_none f.TrxFilter.Src f.TrxFilter.Dst p.BlockBody.Transactions p.TrxMetaData r1.TransactionsRlp lst hl
        rw [hr1T, List.nil_append] at hlst
        rw [← hr2]
        exact hlst
    · rw [if_neg hc]
      have hc2 : (!f.TrxFilter.Off && checkRange f.TrxFilter.StartingBlock f.TrxFilter.EndingBlock p.BlockNumber) = false := by
        simpa using hc
      rw [filterTransactions_skip f r1 p hc2] at h2
      simp only [Except.ok.injEq, Prod.mk.injEq] at h2
      obtain ⟨-, hr2, -, -⟩ := h2
      rw [← hr2]
      exact hr1T
  · rw [F5.2.2.2.1, F4.2.2.2.1, ReceiptsRlpInPayloadOrder]
    by_cases hc : (!f.ReceiptFilter.Off && checkRange f.ReceiptFilter.StartingBlock f.ReceiptFilter.EndingBlock p.BlockNumber) = true
    · rw [if_pos hc]
      cases hl : receiptsLoop f.ReceiptFilter.Topic0s p.Receipts p.ReceiptMetaData r2.ReceiptsRlp with
      | error w =>
        rw [filerReceipts_panic f r2 p w hc hl] at h3
        cases h3
      | ok pr =>
        obtain ⟨lst, e⟩ := pr
        rw [filerReceipts_run f r2 p lst e hc hl] at h3
        simp only [Except.ok.injEq, Prod.mk.injEq] at h3
        obtain ⟨-, hr3, -, he⟩ := h3
        subst he
        have hlst := receiptsLoop_none f.ReceiptFilter.Topic0s p.Receipts p.ReceiptMetaData r2.ReceiptsRlp lst hl
        rw [hr2R, List.nil_append] at hlst
        rw [← hr3]
        exact hlst
    · rw [if_neg hc]
      have hc2 : (!f.ReceiptFilter.Off && checkRange f.ReceiptFilter.StartingBlock f.ReceiptFilter.EndingBlock p.BlockNumber) = false := by
        simpa using hc
      rw [filerReceipts_skip f r2 p hc2] at h3
      simp only [Except.ok.injEq, Prod.mk.injEq] at h3
      obtain ⟨-, hr3, -, -⟩ := h3
      rw [← hr3]
      exact hr2R
  · rw [F5.2.1, F4.2.1, F3.2.1, F2.2.1, UnclesRlpInPayloadOrder]
    by_cases hc : (!f.HeaderFilter.Off && checkRange f.HeaderFilter.StartingBlock f.HeaderFilter.EndingBlock p.BlockNumber) = true
    · by_cases hu : f.HeaderFilter.Uncles = true
      · rw [if_pos (by simp [hc, hu])]
        rcases hul : unclesLoop p.BlockBody.Uncles ({} : ResponsePayload).UnclesRlp with ⟨out, e⟩
        rw [filterHeaders_run_uncles f {} p out e hc hu hul] at h1
        simp only [Except.ok.injEq, Prod.mk.injEq] at h1
        obtain ⟨-, hr1, -, he⟩ := h1
        subst he
        have hout := unclesLoop_none p.BlockBody.Uncles ({} : ResponsePayload).UnclesRlp out hul
        rw [← hr1]
        simpa using hout
      · rw [if_neg (by simp [hu])]
        rw [filterHeaders_run f {} p hc (by simpa using hu)] at h1
        simp only [Except.ok.injEq, Prod.mk.injEq] at h1
        obtain ⟨-, hr1, -, -⟩ := h1
        rw [← hr1]
    · rw [if_neg (by simp [hc])]
      have hc2 : (!f.HeaderFilter.Off && checkRange f.HeaderFilter.StartingBlock f.HeaderFilter.EndingBlock p.BlockNumber) = false := by
        simpa using hc
      rw [filterHeaders_skip f {} p hc2] at h1
      simp only [Except.ok.injEq, Prod.mk.injEq] at h1
      obtain ⟨-, hr1, -, -⟩ := h1
      rw [← hr1]

def c10Filters : StreamFilters :=
  ⟨⟨false, 100, 200, true⟩, ⟨false, 100, 200, ["0xA"], []⟩, ⟨false, 0, 0, ["0x1"]⟩,
    ⟨false, 0, 0, [], false⟩, ⟨true, 0, 0, [], []⟩⟩

def c10Payload : IPLDPayload :=
  ⟨150, [9, 9], ⟨[⟨.ok [3]⟩], [⟨.ok [4]⟩, ⟨.ok [5]⟩]⟩, [⟨"0xA", "0xB"⟩, ⟨"0xZ", "0xC"⟩],
    [⟨.ok [6]⟩], [⟨["0x1", "0x7"]⟩], [(5, ⟨true, [8]⟩)], []⟩

def c10Resp : ResponsePayload := ⟨[[9, 9]], [[3]], [[4]], [[6]], some [(5, [8])], none⟩

theorem C10_payload_order_witness :
    ScreenResponse (fun _ => 0) (fun _ => 0) c10Filters c10Payload = .ret (some c10Resp) none
    ∧ c10Resp.TransactionsRlp = TransactionsRlpInPayloadOrder c10Filters c10Payload
    ∧ c10Resp.ReceiptsRlp = ReceiptsRlpInPayloadOrder c10Filters c10Payload
    ∧ c10Resp.UnclesRlp = UnclesRlpInPayloadOrder c10Filters c10Payload :=
  ⟨by decide,
    C10_payload_order (fun _ => 0) (fun _ => 0) c10Filters c10Payload c10Resp (by decide)⟩
